import Mathlib

/-!
# Release Synchronization and Retention Engine — verification

Shallow embedding of `backup.py` (class `GitHubBackup`) and `config.py` of the
repository `Status-Cai/backup_github`, together with proofs about the engine's
Safe Deletion, Download Manager, Release Poller, Version Store, Retention
Manager and Synchronization Orchestrator components.

Python strings are modelled as `List Char` (code-point lists), so that every
operation is structurally recursive and kernel-evaluable.  Filesystem trees are
modelled at the granularity the claims need: a flat set of existing absolute
paths for Safe Deletion and the Download Manager, and a structured per-repository
state (version directories with names, modification times and contained files,
plus the `version.txt` record) for the orchestrator.

Configuration values (`DOWNLOAD_DIR`, `CLEAN_OLD_VERSIONS`, `KEEP_VERSIONS_COUNT`,
`MAX_DOWNLOAD_ATTEMPTS`) are passed as parameters: the spec's configuration
surface fixes them per run.  Note that `CLEAN_OLD_VERSIONS` and
`KEEP_VERSIONS_COUNT` are consumed by `backup.py` but not defined in
`src/config.py`; they are modelled from the spec as configuration inputs
(spec section 6: "keep-count for retention" and the retention toggle).
-/

/-- Python strings, modelled as lists of code points. -/
abbrev Str := List Char

/-- The error taxonomy of `backup.py` (`NetworkError`, `DownloadError`,
`FileSystemError`, `SecurityError`, all subclasses of `GitHubBackupError`). -/
inductive BackupError : Type
  | networkError (repo : Str)
  | downloadError (msg : Str)
  | fileSystemError (msg : Str)
  | securityError (msg : Str)
deriving DecidableEq

/-- Result of a Python call: a returned value, or a propagating exception. -/
inductive PyResult (α : Type) : Type
  | ok (val : α)
  | raised (err : BackupError)
deriving DecidableEq

/-- `os.path.abspath` for already-normalized path strings: an absolute path is
returned unchanged, a relative one is joined onto the current working
directory. -/
def abspath (cwd p : Str) : Str :=
  if p.head? = some '/' then p else cwd ++ ['/'] ++ p

/-- The set of paths erased by deleting the directory `d` recursively: `d`
itself and every path strictly below it. -/
def inTree (d q : Str) : Bool :=
  q == d || (d ++ ['/']).isPrefixOf q

/-- Effect of `shutil.rmtree dir` (and of the escalating fallback strategies,
which all target the same `dir_path`) on the set of existing paths. -/
def removeTree (fs : List Str) (d : Str) : List Str :=
  fs.filter (fun q => !(inTree d q))

/-- `os.path.exists` over the modelled set of existing paths. -/
def pathExists (fs : List Str) (p : Str) : Bool := fs.contains p

/-- `GitHubBackup.safe_remove_dir` (backup.py lines 122-180).  The sandbox
check is the code's literal `dir_path.startswith(downloads_path)` string-prefix
test on the two `os.path.abspath`-resolved paths.  If the check fails a
`SecurityError` is raised before any filesystem operation; if the target does
not exist the call logs and returns; otherwise the directory tree is removed
(the in-process strategies and the OS fallback differ only in how, not in
what, they delete — deletion is modelled as succeeding). -/
def safe_remove_dir (cwd downloadDir : Str) (fs : List Str) (p : Str) :
    PyResult (List Str) :=
  let dirPath := abspath cwd p
  let downloadsPath := abspath cwd downloadDir
  if !(downloadsPath.isPrefixOf dirPath) then
    .raised (.securityError downloadsPath)
  else if !(pathExists fs dirPath) then
    .ok fs
  else
    .ok (removeTree fs dirPath)

/-- The spec's containment relation: the resolved path equals the resolved
downloads root or lies strictly below it. -/
def isDescendantOrSelf (p root : Str) : Bool :=
  p == root || (root ++ ['/']).isPrefixOf p

/-- Outcome of a single streamed fetch, as observable by
`download_file_with_progress`: the request or `raise_for_status()` failed
before the destination file was opened; or the file was opened (created or
truncated) and then a read/write error occurred mid-stream; or every chunk was
streamed and written. -/
inductive FetchOutcome : Type
  | httpError
  | streamError
  | success
deriving DecidableEq

/-- `os.remove` on the modelled file set. -/
def removeFile (fs : List Str) (p : Str) : List Str :=
  fs.filter (fun q => q != p)

/-- `open(p, 'wb')` / completed write: `p` exists afterwards. -/
def createFile (fs : List Str) (p : Str) : List Str :=
  if fs.contains p then fs else fs ++ [p]

/-- `GitHubBackup.download_file_with_progress` (backup.py lines 182-200).
Returns `True` on success; on any exception the handler deletes
`local_filename` if it exists and returns `False`.  Note the handler also
deletes a pre-existing file at the destination when the request itself failed
before the file was opened. -/
def download_file_with_progress (fs : List Str) (dest : Str)
    (outcome : FetchOutcome) : Bool × List Str :=
  match outcome with
  | .httpError => (false, removeFile fs dest)
  | .streamError => (false, removeFile (createFile fs dest) dest)
  | .success => (true, createFile fs dest)

/-- C1: the claim states that every path whose resolved form is not a
descendant of (nor equal to) the resolved downloads root is rejected with
`SecurityError` and nothing is mutated.  The code instead tests
`dir_path.startswith(downloads_path)`: the sibling directory
`/home/user/downloadsEvil` is not a descendant of `/home/user/downloads`,
yet the prefix test accepts it and the call deletes the whole sibling tree. -/
theorem C1_sandbox_prefix_bug :
    isDescendantOrSelf (abspath "/home/user".data "downloadsEvil".data)
        (abspath "/home/user".data "downloads".data) = false
    ∧ safe_remove_dir "/home/user".data "downloads".data
        ["/home/user/downloads".data, "/home/user/downloadsEvil".data,
         "/home/user/downloadsEvil/data.txt".data]
        "downloadsEvil".data
      = .ok ["/home/user/downloads".data] := by
  constructor
  · decide
  · decide

/-- C4: whenever `download_file_with_progress` returns failure, the
destination path does not exist on disk: any partially written (or even
pre-existing) file at the destination was deleted before returning. -/
theorem C4_no_partial_artifact (fs : List Str) (dest : Str) (o : FetchOutcome)
    (hfail : (download_file_with_progress fs dest o).1 = false) :
    dest ∉ (download_file_with_progress fs dest o).2 := by
  cases o with
  | httpError =>
      simp only [download_file_with_progress, removeFile, List.mem_filter,
        bne_self_eq_false, and_false, not_false_iff]
      simp
  | streamError =>
      simp only [download_file_with_progress, removeFile, List.mem_filter]
      simp
  | success => simp [download_file_with_progress] at hfail

/-- Witness for C4 at a concrete failing fetch. -/
theorem C4_no_partial_artifact_witness :
    "f".data ∉ (download_file_with_progress ["f".data] "f".data
      FetchOutcome.streamError).2 :=
  C4_no_partial_artifact ["f".data] "f".data FetchOutcome.streamError rfl

/-- One release asset as parsed from the GitHub API response
(`asset['name']`, `asset['browser_download_url']`). -/
structure Asset : Type where
  name : Str
  browser_download_url : Str
deriving DecidableEq

/-- The dictionary returned by `get_latest_release`:
`{'tag_name': ..., 'assets': ...}`. -/
structure ReleaseInfo : Type where
  tag_name : Str
  assets : List Asset
deriving DecidableEq

/-- Observable outcome of one polling attempt inside `get_latest_release`:
either `session.get`/`raise_for_status` raised a
`requests.exceptions.RequestException`, or a response body was parsed, with
`data.get('tag_name')` and `data.get('assets', [])`. -/
inductive PollAttempt : Type
  | reqError
  | response (tag_name : Option Str) (assets : List Asset)
deriving DecidableEq

/-- `GitHubBackup.get_latest_release` (backup.py lines 88-112), over the list
of outcomes of its up-to-`MAX_DOWNLOAD_ATTEMPTS` attempts.  A parsed response
with a non-empty `tag_name` yields the release; a missing or empty (falsy)
`tag_name` yields `None`.  A request error on any attempt but the last is
retried after a linear delay; on the last attempt it raises `NetworkError`
carrying the repository id.  An empty attempt list models
`MAX_DOWNLOAD_ATTEMPTS = 0`, where the loop body never runs and the function
returns `None`. -/
def get_latest_release (repo : Str) : List PollAttempt → PyResult (Option ReleaseInfo)
  | [] => .ok none
  | .response none _ :: _ => .ok none
  | .response (some t) assets :: _ =>
      if t = [] then .ok none else .ok (some ⟨t, assets⟩)
  | [.reqError] => .raised (.networkError repo)
  | .reqError :: a :: rest => get_latest_release repo (a :: rest)

/-- A release returned by the poller always carries a non-empty tag
(`if tag_name:` is false for `None` and for the empty string). -/
theorem get_latest_release_tag_ne_nil (repo : Str) :
    ∀ (attempts : List PollAttempt) (rel : ReleaseInfo),
      get_latest_release repo attempts = .ok (some rel) → rel.tag_name ≠ [] := by
  intro attempts
  induction attempts with
  | nil => intro rel h; simp [get_latest_release] at h
  | cons a rest ih =>
      intro rel h
      cases a with
      | response tagName assets =>
          cases tagName with
          | none => simp [get_latest_release] at h
          | some t =>
              by_cases ht : t = []
              · simp [get_latest_release, ht] at h
              · simp [get_latest_release, ht] at h
                subst h
                exact ht
      | reqError =>
          cases rest with
          | nil => simp [get_latest_release] at h
          | cons b rest2 =>
              exact ih rel (by simpa [get_latest_release] using h)

/-- `GitHubBackup.save_local_version` (backup.py lines 214-224), with the
success of the underlying `os.makedirs` + `open(...,'w')`/`write` I/O as a
parameter.  The entire body is wrapped in `try/except Exception`, and the
handler only calls `logger.error`: an I/O failure is swallowed, nothing is
re-raised, and `version.txt` keeps its previous content. -/
def save_local_version (writeOk : Bool) (record : Option Str) (version : Str) :
    PyResult (Option Str) :=
  if writeOk then .ok (some version) else .ok record

/-- C8 counterexample: the claim states that a failed VersionRecord write
raises `FileSystemError`.  With the write failing, `save_local_version`
instead returns normally (no exception of any kind) and leaves the record
unchanged. -/
theorem C8_counterexample_write_failure_swallowed :
    save_local_version false (some "v1".data) "v2".data = .ok (some "v1".data) := by
  decide

/-- C8 amended: `save_local_version` never raises — a failed write is logged
and swallowed, leaving the record as it was, and the orchestrator (which
receives no signal) does not retry the write; a successful write stores the
new tag. -/
theorem C8_amended_write_failure_logged (record : Option Str) (version : Str) :
    save_local_version false record version = .ok record
    ∧ save_local_version true record version = .ok (some version) := by
  exact ⟨rfl, rfl⟩

/-- One immediate subdirectory of a repository's directory: its entry name,
its filesystem modification time (`os.path.getmtime`) and the names of the
files it contains. -/
structure VDir : Type where
  name : Str
  mtime : Nat
  files : List Str
deriving DecidableEq

/-- Per-repository persistent state: the version directories under
`DOWNLOAD_DIR/<repo-name>/` and the content of `version.txt` (`none` when
the record file is absent or unreadable).  A missing repository directory is
the state with no version directories and no record. -/
structure RepoState : Type where
  versionDirs : List VDir
  record : Option Str
deriving DecidableEq

/-- The configuration values the engine consumes (spec section 6).
`CLEAN_OLD_VERSIONS` and `KEEP_VERSIONS_COUNT` are referenced by `backup.py`
but not defined in `src/config.py`; they are modelled from the spec as the
retention toggle and the keep-count, fixed for the run. -/
structure Config : Type where
  cleanOldVersions : Bool
  keepVersionsCount : Nat
deriving DecidableEq

/-- The ordering key Python sorts by in `clean_old_versions`: the tuples
`(mtime, item, item_path)` compare lexicographically, and since every entry
shares the directory part of `item_path`, this is lexicographic comparison of
`(mtime, item)`. -/
def vdirKeyGe (a b : VDir) : Bool :=
  decide (b.mtime < a.mtime ∨ (b.mtime = a.mtime ∧ b.name ≤ a.name))

/-- Insert a directory into a list that is already descending for
`vdirKeyGe`, keeping it descending. -/
def insertVDir (d : VDir) : List VDir → List VDir
  | [] => [d]
  | e :: rest => if vdirKeyGe d e then d :: e :: rest else e :: insertVDir d rest

/-- `version_dirs.sort(reverse=True)`: descending lexicographic order on
`(mtime, name)` — most recent first, ties broken by name descending.  Keys
are distinct for any real directory listing (entry names are unique), so any
sort realizes the same list; a structurally recursive insertion sort is used
so that the model evaluates. -/
def sortVersionDirs : List VDir → List VDir
  | [] => []
  | d :: rest => insertVDir d (sortVersionDirs rest)

/-- `GitHubBackup.clean_old_versions` (backup.py lines 226-293).  Gates, in
order: the `CLEAN_OLD_VERSIONS` toggle; the repository directory existing
(subsumed by the empty state); `get_local_version` returning a truthy value
(a present, non-empty `version.txt`).  It then enumerates the immediate
subdirectories with their modification times, keeps everything when there are
at most `KEEP_VERSIONS_COUNT` of them, and otherwise sorts descending and
deletes each directory beyond the first `KEEP_VERSIONS_COUNT` via
`safe_remove_dir` (each target lies under `DOWNLOAD_DIR`, so the sandbox
check passes; deletions are modelled as succeeding — a failure is logged and
skips only that entry). -/
def clean_old_versions (cfg : Config) (s : RepoState) : RepoState :=
  if !cfg.cleanOldVersions then s
  else
    match s.record with
    | none => s
    | some v =>
      if v = [] then s
      else if s.versionDirs.length ≤ cfg.keepVersionsCount then s
      else { s with
        versionDirs := (sortVersionDirs s.versionDirs).take cfg.keepVersionsCount }

/-- Unfolding of the descending sort key comparison. -/
theorem vdirKeyGe_iff (a b : VDir) :
    vdirKeyGe a b = true ↔
      b.mtime < a.mtime ∨ (b.mtime = a.mtime ∧ b.name ≤ a.name) := by
  simp [vdirKeyGe]

/-- The sort comparison is transitive. -/
theorem vdirKeyGe_trans (a b c : VDir) (hab : vdirKeyGe a b = true)
    (hbc : vdirKeyGe b c = true) : vdirKeyGe a c = true := by
  rw [vdirKeyGe_iff] at hab hbc ⊢
  rcases hab with h1 | ⟨h1, h1n⟩
  · rcases hbc with h2 | ⟨h2, h2n⟩
    · exact Or.inl (lt_trans h2 h1)
    · exact Or.inl (h2 ▸ h1)
  · rcases hbc with h2 | ⟨h2, h2n⟩
    · exact Or.inl (h1 ▸ h2)
    · exact Or.inr ⟨h2.trans h1, le_trans h2n h1n⟩

/-- The sort comparison is total. -/
theorem vdirKeyGe_total (a b : VDir) :
    (vdirKeyGe a b || vdirKeyGe b a) = true := by
  rcases lt_trichotomy a.mtime b.mtime with h | h | h
  · have : vdirKeyGe b a = true := (vdirKeyGe_iff b a).mpr (Or.inl h)
    simp [this]
  · rcases le_total a.name b.name with hn | hn
    · have : vdirKeyGe b a = true := (vdirKeyGe_iff b a).mpr (Or.inr ⟨h, hn⟩)
      simp [this]
    · have : vdirKeyGe a b = true := (vdirKeyGe_iff a b).mpr (Or.inr ⟨h.symm, hn⟩)
      simp [this]
  · have : vdirKeyGe a b = true := (vdirKeyGe_iff a b).mpr (Or.inl h)
    simp [this]

/-- Inserting puts exactly the inserted element on top of the old content. -/
theorem insertVDir_perm (d : VDir) (l : List VDir) :
    (insertVDir d l).Perm (d :: l) := by
  induction l with
  | nil => simp [insertVDir]
  | cons e rest ih =>
      by_cases h : vdirKeyGe d e
      · simp [insertVDir, h]
      · have hrw : insertVDir d (e :: rest) = e :: insertVDir d rest := by
          simp [insertVDir, h]
        rw [hrw]
        exact (ih.cons e).trans (List.Perm.swap d e rest)

/-- The sorted list is a permutation of the enumerated directories. -/
theorem sortVersionDirs_perm (dirs : List VDir) :
    (sortVersionDirs dirs).Perm dirs := by
  induction dirs with
  | nil => simp [sortVersionDirs]
  | cons d rest ih =>
      exact (insertVDir_perm d (sortVersionDirs rest)).trans (ih.cons d)

/-- Insertion preserves the descending pairwise invariant. -/
theorem insertVDir_pairwise (d : VDir) (l : List VDir)
    (h : List.Pairwise (fun a b => vdirKeyGe a b = true) l) :
    List.Pairwise (fun a b => vdirKeyGe a b = true) (insertVDir d l) := by
  induction l with
  | nil => simp [insertVDir]
  | cons e rest ih =>
      rcases List.pairwise_cons.mp h with ⟨he, hrest⟩
      by_cases hde : vdirKeyGe d e
      · have hrw : insertVDir d (e :: rest) = d :: e :: rest := by
          simp [insertVDir, hde]
        rw [hrw]
        refine List.pairwise_cons.mpr ⟨?_, h⟩
        intro x hx
        rcases List.mem_cons.mp hx with rfl | hx2
        · exact hde
        · exact vdirKeyGe_trans d e x hde (he x hx2)
      · have hrw : insertVDir d (e :: rest) = e :: insertVDir d rest := by
          simp [insertVDir, hde]
        rw [hrw]
        have hed : vdirKeyGe e d = true := by
          rcases Bool.or_eq_true_iff.mp (vdirKeyGe_total d e) with h1 | h1
          · exact absurd h1 hde
          · exact h1
        refine List.pairwise_cons.mpr ⟨?_, ih hrest⟩
        intro x hx
        rcases List.mem_cons.mp ((insertVDir_perm d rest).mem_iff.mp hx) with rfl | hx2
        · exact hed
        · exact he x hx2

/-- The sorted list is pairwise descending for the sort key. -/
theorem sortVersionDirs_pairwise (dirs : List VDir) :
    List.Pairwise (fun a b => vdirKeyGe a b = true) (sortVersionDirs dirs) := by
  induction dirs with
  | nil => simp [sortVersionDirs]
  | cons d rest ih => exact insertVDir_pairwise d (sortVersionDirs rest) ih

/-- Retention keeps only the record: pruning never touches `version.txt`. -/
theorem clean_old_versions_record (cfg : Config) (s : RepoState) :
    (clean_old_versions cfg s).record = s.record := by
  by_cases hc : cfg.cleanOldVersions
  · cases hr : s.record with
    | none => simp [clean_old_versions, hc, hr]
    | some v =>
        by_cases hv : v = []
        · simp [clean_old_versions, hc, hr, hv]
        · by_cases hl : s.versionDirs.length ≤ cfg.keepVersionsCount
          · simp [clean_old_versions, hc, hr, hv, hl]
          · simp [clean_old_versions, hc, hr, hv, hl]
  · simp [clean_old_versions, hc]

/-- Pruning twice in a row (with unchanged modification times) is the same as
pruning once: the second pass finds at most `KEEP_VERSIONS_COUNT` directories
and deletes nothing. -/
theorem clean_old_versions_idem (cfg : Config) (s : RepoState) :
    clean_old_versions cfg (clean_old_versions cfg s) = clean_old_versions cfg s := by
  by_cases hc : cfg.cleanOldVersions
  · cases hr : s.record with
    | none => simp [clean_old_versions, hc, hr]
    | some v =>
        by_cases hv : v = []
        · simp [clean_old_versions, hc, hr, hv]
        · by_cases hl : s.versionDirs.length ≤ cfg.keepVersionsCount
          · simp [clean_old_versions, hc, hr, hv, hl]
          · have hlen : ((sortVersionDirs s.versionDirs).take
                cfg.keepVersionsCount).length ≤ cfg.keepVersionsCount :=
              List.length_take_le _ _
            simp [clean_old_versions, hc, hr, hv, hl, hlen]
  · simp [clean_old_versions, hc]

/-- C6 counterexample: the claim quantifies over every repo root with N
version subdirectories, but `clean_old_versions` returns before enumerating
anything when `get_local_version` yields no committed version.  With three
version directories, keep-count 1 and no `version.txt`, nothing is deleted
and three directories remain instead of exactly one. -/
theorem C6_counterexample_no_record_no_prune :
    clean_old_versions ⟨true, 1⟩
        ⟨[⟨"a1".data, 3, []⟩, ⟨"a2".data, 2, []⟩, ⟨"a3".data, 1, []⟩], none⟩
      = ⟨[⟨"a1".data, 3, []⟩, ⟨"a2".data, 2, []⟩, ⟨"a3".data, 1, []⟩], none⟩
    ∧ ¬ (clean_old_versions ⟨true, 1⟩
        ⟨[⟨"a1".data, 3, []⟩, ⟨"a2".data, 2, []⟩, ⟨"a3".data, 1, []⟩],
          none⟩).versionDirs.length = 1 := by
  constructor
  · decide
  · decide

/-- C6 amended: provided cleaning is enabled and a non-empty VersionRecord is
readable for the repository, pruning a root holding N version directories with
keep-count K leaves everything untouched when N ≤ K, and otherwise retains
exactly K directories — the K most recently modified ones, ties in
modification time broken by directory name descending: every deleted
directory is strictly older (or tied with a lexicographically smaller name)
than every retained one. -/
theorem C6_retention_invariant (cfg : Config) (dirs : List VDir) (v : Str)
    (hclean : cfg.cleanOldVersions = true) (hv : v ≠ [])
    (hnames : (dirs.map VDir.name).Nodup) :
    (dirs.length ≤ cfg.keepVersionsCount →
        clean_old_versions cfg ⟨dirs, some v⟩ = ⟨dirs, some v⟩)
    ∧ (cfg.keepVersionsCount < dirs.length →
        (clean_old_versions cfg ⟨dirs, some v⟩).versionDirs.length
            = cfg.keepVersionsCount
        ∧ (∀ d ∈ (clean_old_versions cfg ⟨dirs, some v⟩).versionDirs, d ∈ dirs)
        ∧ (∀ d ∈ (clean_old_versions cfg ⟨dirs, some v⟩).versionDirs,
            ∀ d' ∈ dirs, d' ∉ (clean_old_versions cfg ⟨dirs, some v⟩).versionDirs →
              d'.mtime < d.mtime ∨ (d'.mtime = d.mtime ∧ d'.name < d.name))) := by
  constructor
  · intro hle
    simp [clean_old_versions, hclean, hv, hle]
  · intro hgt
    have hnle : ¬ (dirs.length ≤ cfg.keepVersionsCount) := not_le.mpr hgt
    have hres : (clean_old_versions cfg ⟨dirs, some v⟩).versionDirs
        = (sortVersionDirs dirs).take cfg.keepVersionsCount := by
      simp [clean_old_versions, hclean, hv, hnle]
    rw [hres]
    have hperm : (sortVersionDirs dirs).Perm dirs := sortVersionDirs_perm dirs
    have hlensort : (sortVersionDirs dirs).length = dirs.length := hperm.length_eq
    refine ⟨?_, ?_, ?_⟩
    · rw [List.length_take, hlensort]
      exact Nat.min_eq_left (le_of_lt hgt)
    · intro d hd
      exact hperm.subset (List.take_subset _ _ hd)
    · intro d hd d' hd' hd'n
      -- place d' in the dropped suffix of the sorted list
      have hsplit : (sortVersionDirs dirs).take cfg.keepVersionsCount
          ++ (sortVersionDirs dirs).drop cfg.keepVersionsCount
          = sortVersionDirs dirs := List.take_append_drop _ _
      have hd's : d' ∈ sortVersionDirs dirs := hperm.mem_iff.mpr hd'
      have hd'drop : d' ∈ (sortVersionDirs dirs).drop cfg.keepVersionsCount := by
        rcases (List.mem_append.mp (by rw [hsplit]; exact hd's)) with h | h
        · exact absurd h hd'n
        · exact h
      -- pairwise descending over the split gives the key comparison
      have hpair : List.Pairwise (fun a b => vdirKeyGe a b = true)
          ((sortVersionDirs dirs).take cfg.keepVersionsCount
            ++ (sortVersionDirs dirs).drop cfg.keepVersionsCount) := by
        rw [hsplit]; exact sortVersionDirs_pairwise dirs
      have hge : vdirKeyGe d d' = true :=
        (List.pairwise_append.mp hpair).2.2 d hd d' hd'drop
      -- distinct names across the enumerated directories
      have hnames' : List.Pairwise (fun a b : VDir => a.name ≠ b.name) dirs := by
        have := (List.pairwise_map.mp hnames)
        exact this
      have hnamesS : List.Pairwise (fun a b : VDir => a.name ≠ b.name)
          ((sortVersionDirs dirs).take cfg.keepVersionsCount
            ++ (sortVersionDirs dirs).drop cfg.keepVersionsCount) := by
        rw [hsplit]
        exact (hperm.pairwise_iff (fun h => Ne.symm h)).mpr hnames'
      have hne : d.name ≠ d'.name :=
        (List.pairwise_append.mp hnamesS).2.2 d hd d' hd'drop
      rcases (vdirKeyGe_iff d d').mp hge with h | ⟨h, hn⟩
      · exact Or.inl h
      · exact Or.inr ⟨h, lt_of_le_of_ne hn (fun he => hne he.symm)⟩

/-- Witness for C6 at a concrete root with a modification-time tie: keep-count
2, directories `b1`/`b2` tied at time 5 and `b0` older — exactly two remain. -/
theorem C6_retention_invariant_witness :
    (clean_old_versions ⟨true, 2⟩
        ⟨[⟨"b1".data, 5, []⟩, ⟨"b2".data, 5, []⟩, ⟨"b0".data, 1, []⟩],
          some "v".data⟩).versionDirs.length = 2 :=
  ((C6_retention_invariant ⟨true, 2⟩
      [⟨"b1".data, 5, []⟩, ⟨"b2".data, 5, []⟩, ⟨"b0".data, 1, []⟩]
      "v".data rfl (by decide) (by decide)).2 (by decide)).1

/-- C10 counterexample: the claim states that pruning is not conditioned on a
VersionRecord existing.  With no `version.txt`, keep-count 1 and an old
directory `v1` outside the keep-window, `clean_old_versions` returns before
enumerating anything: `v1` survives. -/
theorem C10_counterexample_record_gate :
    clean_old_versions ⟨true, 1⟩
        ⟨[⟨"v1".data, 1, []⟩, ⟨"v2".data, 2, []⟩], none⟩
      = ⟨[⟨"v1".data, 1, []⟩, ⟨"v2".data, 2, []⟩], none⟩
    ∧ ¬ (clean_old_versions ⟨true, 1⟩
        ⟨[⟨"v1".data, 1, []⟩, ⟨"v2".data, 2, []⟩], none⟩).versionDirs.length = 1 := by
  constructor
  · decide
  · decide

/-- C10 amended: pruning runs only when a non-empty VersionRecord is readable
(with none, the call is a no-op); when it does run, the selection of deleted
directories is purely by recency rank — it does not depend on which tag the
record holds, so a directory whose tag was never promoted is treated exactly
like a committed one. -/
theorem C10_rank_only_pruning (cfg : Config) (dirs : List VDir) (v w : Str)
    (hv : v ≠ []) (hw : w ≠ []) :
    (clean_old_versions cfg ⟨dirs, some v⟩).versionDirs
        = (clean_old_versions cfg ⟨dirs, some w⟩).versionDirs
    ∧ clean_old_versions cfg ⟨dirs, none⟩ = ⟨dirs, none⟩ := by
  constructor
  · by_cases hc : cfg.cleanOldVersions
    · by_cases hl : dirs.length ≤ cfg.keepVersionsCount
      · simp [clean_old_versions, hc, hv, hw, hl]
      · simp [clean_old_versions, hc, hv, hw, hl]
    · simp [clean_old_versions, hc]
  · by_cases hc : cfg.cleanOldVersions
    · simp [clean_old_versions, hc]
    · simp [clean_old_versions, hc]

/-- Witness for C10: with the record present, pruning two directories down to
one keeps the same survivor whether the recorded tag is the newest directory's
tag or a tag matching no directory at all. -/
theorem C10_rank_only_pruning_witness :
    (clean_old_versions ⟨true, 1⟩
        ⟨[⟨"v1".data, 1, []⟩, ⟨"v2".data, 2, []⟩], some "v2".data⟩).versionDirs
      = (clean_old_versions ⟨true, 1⟩
        ⟨[⟨"v1".data, 1, []⟩, ⟨"v2".data, 2, []⟩], some "zz".data⟩).versionDirs :=
  (C10_rank_only_pruning ⟨true, 1⟩ [⟨"v1".data, 1, []⟩, ⟨"v2".data, 2, []⟩]
    "v2".data "zz".data (by decide) (by decide)).1

/-- `str.split('/')` for the single-character separator used by
`repo.split('/')`. -/
def splitOnSlash : Str → List Str
  | [] => [[]]
  | c :: rest =>
      match splitOnSlash rest with
      | [] => [[c]]
      | h :: t => if c = '/' then [] :: h :: t else (c :: h) :: t

/-- `repo.split('/')[-1]`: the repository's short name. -/
def repoShortName (repo : Str) : Str :=
  (splitOnSlash repo).getLastD []

/-- `tag_name.replace('/', '_')` — the pattern is a single character, so this
is a per-character substitution. -/
def sanitizeTag (tag : Str) : Str :=
  tag.map (fun c => if c = '/' then '_' else c)

/-- Environment of one repository cycle: the outcomes of the polling attempts,
of the source-archive fetch and of each asset fetch (by position in the
release's asset list), whether the `version.txt` write I/O succeeds, and the
modification time stamped on a directory created now. -/
structure CycleEnv : Type where
  pollAttempts : List PollAttempt
  archiveOutcome : FetchOutcome
  assetOutcome : Nat → FetchOutcome
  saveWriteOk : Bool
  now : Nat

/-- Instrumentation of one cycle: which directory was passed to
`safe_remove_dir` at the stale-staging check (backup.py line 319), which one
in the failure-cleanup handler (line 359), the result of the source-archive
fetch (`none` when it was never attempted), and the tag passed to
`save_local_version` (`none` when it was never called). -/
structure CycleTrace : Type where
  preStageRemoved : Option Str
  rollbackRemoved : Option Str
  archiveResult : Option Bool
  recordWritten : Option Str
deriving DecidableEq

/-- The trace of a cycle that neither staged, fetched, nor committed. -/
def emptyTrace : CycleTrace := ⟨none, none, none, none⟩

/-- Return value, final repository state and trace of one cycle. -/
structure CycleResult : Type where
  result : PyResult Bool
  state : RepoState
  trace : CycleTrace
deriving DecidableEq

/-- `GitHubBackup.download_source_code` (backup.py lines 295-363), one
synchronization cycle for one repository.  Control flow mirrored from the
source:
* `get_latest_release` raising `NetworkError` propagates (the call is outside
  any `try`); a `None` release logs and returns `False`;
* an unchanged local version runs `clean_old_versions` and returns `True`;
* otherwise a pre-existing directory for the sanitized tag is deleted via
  `safe_remove_dir` (its path lies under `DOWNLOAD_DIR`, so the sandbox check
  passes), the staged directory is recreated empty, and the archive is
  fetched into it;
* a failed archive fetch returns `False` — the code's `if` body is skipped,
  the function falls off the end of the `try` (Python returns the falsy
  `None`, modelled as `False`), and the staged directory is left in place:
  the `except` handler that would delete it only fires on a raised exception,
  and `download_file_with_progress` signals failure by returning `False`;
* on archive success each asset is fetched (failures only logged), then
  `save_local_version` and `clean_old_versions` run and the cycle returns
  `True`.  The `except` branch (lines 356-360) is unreachable here: no call
  inside the `try` raises in the model (downloads return booleans, save and
  clean swallow their exceptions). -/
def download_source_code (cfg : Config) (repo : Str) (env : CycleEnv)
    (s : RepoState) : CycleResult :=
  match get_latest_release repo env.pollAttempts with
  | .raised e => ⟨.raised e, s, emptyTrace⟩
  | .ok none => ⟨.ok false, s, emptyTrace⟩
  | .ok (some rel) =>
      let tagName := rel.tag_name
      let safeTag := sanitizeTag tagName
      let repoName := repoShortName repo
      if s.record = some tagName then
        ⟨.ok true, clean_old_versions cfg s, emptyTrace⟩
      else
        let preRem : Option Str :=
          if s.versionDirs.any (fun d => d.name == safeTag) then some safeTag
          else none
        let s1 : RepoState :=
          ⟨s.versionDirs.filter (fun d => d.name != safeTag), s.record⟩
        let zipName := repoName ++ "_".data ++ safeTag ++ "_source.zip".data
        match download_file_with_progress [] zipName env.archiveOutcome with
        | (false, files0) =>
            ⟨.ok false,
             ⟨s1.versionDirs ++ [⟨safeTag, env.now, files0⟩], s1.record⟩,
             ⟨preRem, none, some false, none⟩⟩
        | (true, files1) =>
            let files2 := rel.assets.enum.foldl
              (fun fsAcc ia =>
                (download_file_with_progress fsAcc ia.2.name
                  (env.assetOutcome ia.1)).2)
              files1
            let rec2 := match save_local_version env.saveWriteOk s1.record tagName with
              | .ok r => r
              | .raised _ => s1.record
            let s2 : RepoState :=
              ⟨s1.versionDirs ++ [⟨safeTag, env.now, files2⟩], rec2⟩
            ⟨.ok true, clean_old_versions cfg s2,
             ⟨preRem, none, some true, some tagName⟩⟩

/-- `monitor_repos` (backup.py lines 365-379): repositories are processed
sequentially; each cycle runs under `try/except ... continue`, so whatever a
cycle returns or raises, its final state is kept and the loop advances to the
next configured repository. -/
def monitor_repos (cfg : Config) :
    List (Str × CycleEnv × RepoState) → List RepoState
  | [] => []
  | (repo, env, s) :: rest =>
      (download_source_code cfg repo env s).state :: monitor_repos cfg rest

/-- The tag the poller resolves from the remote, if any. -/
def remoteTag (repo : Str) (attempts : List PollAttempt) : Option Str :=
  match get_latest_release repo attempts with
  | .ok (some rel) => some rel.tag_name
  | _ => none

/-- Pruning only ever deletes: every directory surviving
`clean_old_versions` was already present. -/
theorem clean_old_versions_subset (cfg : Config) (s : RepoState) :
    ∀ d ∈ (clean_old_versions cfg s).versionDirs, d ∈ s.versionDirs := by
  intro d hd
  by_cases hc : cfg.cleanOldVersions
  · cases hr : s.record with
    | none => simpa [clean_old_versions, hc, hr] using hd
    | some v =>
        by_cases hv : v = []
        · simpa [clean_old_versions, hc, hr, hv] using hd
        · by_cases hl : s.versionDirs.length ≤ cfg.keepVersionsCount
          · simpa [clean_old_versions, hc, hr, hv, hl] using hd
          · have hd' : d ∈ (sortVersionDirs s.versionDirs).take
                cfg.keepVersionsCount := by
              simpa [clean_old_versions, hc, hr, hv, hl] using hd
            exact (sortVersionDirs_perm s.versionDirs).subset
              (List.take_subset _ _ hd')
  · simpa [clean_old_versions, hc] using hd

/-- With every attempt failing, the poller exhausts its retries and raises
`NetworkError` carrying the repository id. -/
theorem get_latest_release_all_fail (repo : Str) (n : Nat) :
    get_latest_release repo (List.replicate (n + 1) PollAttempt.reqError)
      = .raised (.networkError repo) := by
  induction n with
  | zero => rfl
  | succ m ih =>
      have h2 : List.replicate (m + 2) PollAttempt.reqError
          = PollAttempt.reqError :: List.replicate (m + 1) PollAttempt.reqError :=
        List.replicate_succ _ _
      have h3 : List.replicate (m + 1) PollAttempt.reqError
          = PollAttempt.reqError :: List.replicate m PollAttempt.reqError :=
        List.replicate_succ _ _
      rw [h2, h3]
      have hstep : get_latest_release repo
          (PollAttempt.reqError :: PollAttempt.reqError ::
            List.replicate m PollAttempt.reqError)
          = get_latest_release repo
            (PollAttempt.reqError :: List.replicate m PollAttempt.reqError) := by
        simp [get_latest_release]
      rw [hstep, ← h3]
      exact ih

/-- C2: across every cycle shape and every combination of download outcomes,
`save_local_version` is invoked — with the newly resolved tag — exactly when
the cycle performed a source-archive download and that download succeeded.
Asset outcomes (`env.assetOutcome`) are universally quantified and do not
appear in the condition: per-asset failures never prevent the write, and a
failed (or never attempted) archive always prevents it. -/
theorem C2_commit_iff_archive_success (cfg : Config) (repo : Str)
    (env : CycleEnv) (s : RepoState) :
    ((download_source_code cfg repo env s).trace.recordWritten
      = if (download_source_code cfg repo env s).trace.archiveResult = some true
        then remoteTag repo env.pollAttempts
        else none)
    ∧ (env.saveWriteOk = true →
        (download_source_code cfg repo env s).state.record
          = if (download_source_code cfg repo env s).trace.archiveResult = some true
            then remoteTag repo env.pollAttempts
            else s.record) := by
  cases hp : get_latest_release repo env.pollAttempts with
  | raised e => simp [download_source_code, remoteTag, hp, emptyTrace]
  | ok orel =>
      cases orel with
      | none => simp [download_source_code, remoteTag, hp, emptyTrace]
      | some rel =>
          by_cases hrec : s.record = some rel.tag_name
          · simp [download_source_code, remoteTag, hp, hrec, emptyTrace,
              clean_old_versions_record]
          · cases ha : env.archiveOutcome with
            | httpError =>
                simp [download_source_code, remoteTag, hp, hrec, ha,
                  download_file_with_progress, save_local_version,
                  clean_old_versions_record]
            | streamError =>
                simp [download_source_code, remoteTag, hp, hrec, ha,
                  download_file_with_progress, save_local_version,
                  clean_old_versions_record]
            | success =>
                refine ⟨?_, ?_⟩
                · simp [download_source_code, remoteTag, hp, hrec, ha,
                    download_file_with_progress]
                · intro hsw
                  simp [download_source_code, remoteTag, hp, hrec, ha,
                    download_file_with_progress, save_local_version, hsw,
                    clean_old_versions_record]

/-- Witness for C2's state-level half at a concrete committing cycle. -/
theorem C2_commit_iff_archive_success_witness :
    (download_source_code ⟨false, 0⟩ "o/r".data
      ⟨[.response (some "v5".data) []], .success, fun _ => .success, true, 3⟩
      ⟨[], none⟩).state.record
      = if (download_source_code ⟨false, 0⟩ "o/r".data
            ⟨[.response (some "v5".data) []], .success, fun _ => .success, true, 3⟩
            ⟨[], none⟩).trace.archiveResult = some true
        then remoteTag "o/r".data [.response (some "v5".data) []]
        else none :=
  (C2_commit_iff_archive_success ⟨false, 0⟩ "o/r".data
    ⟨[.response (some "v5".data) []], .success, fun _ => .success, true, 3⟩
    ⟨[], none⟩).2 rfl

/-- C7 counterexample: the claim states the VersionRecord is updated only
when every artifact (archive and all assets) was written.  In this cycle the
asset `a.bin` fails to download — the version directory ends up holding only
the archive — yet `save_local_version` still runs and `version.txt` becomes
`v2`. -/
theorem C7_counterexample_asset_failure_still_commits :
    download_source_code ⟨false, 0⟩ "o/w".data
      ⟨[.response (some "v2".data) [⟨"a.bin".data, "u".data⟩]], .success,
        fun _ => .httpError, true, 9⟩ ⟨[], none⟩
    = ⟨.ok true, ⟨[⟨"v2".data, 9, ["w_v2_source.zip".data]⟩], some "v2".data⟩,
       ⟨none, none, some true, some "v2".data⟩⟩ := by
  decide

/-- C7 amended: the VersionRecord is updated only after the source-archive
download of the cycle completed successfully; failed assets are merely absent
from the version directory and do not prevent the update. -/
theorem C7_commit_only_after_archive (cfg : Config) (repo : Str)
    (env : CycleEnv) (s : RepoState)
    (hw : (download_source_code cfg repo env s).trace.recordWritten.isSome = true) :
    (download_source_code cfg repo env s).trace.archiveResult = some true := by
  cases hp : get_latest_release repo env.pollAttempts with
  | raised e => simp [download_source_code, hp, emptyTrace] at hw
  | ok orel =>
      cases orel with
      | none => simp [download_source_code, hp, emptyTrace] at hw
      | some rel =>
          by_cases hrec : s.record = some rel.tag_name
          · simp [download_source_code, hp, hrec, emptyTrace] at hw
          · cases ha : env.archiveOutcome
            · simp [download_source_code, hp, hrec, ha,
                download_file_with_progress] at hw
            · simp [download_source_code, hp, hrec, ha,
                download_file_with_progress] at hw
            · simp [download_source_code, hp, hrec, ha,
                download_file_with_progress]

/-- Witness for C7 (amended) at a concrete committing cycle. -/
theorem C7_commit_only_after_archive_witness :
    (download_source_code ⟨false, 0⟩ "o/w".data
      ⟨[.response (some "v3".data) []], .success, fun _ => .success, true, 1⟩
      ⟨[], none⟩).trace.archiveResult = some true :=
  C7_commit_only_after_archive ⟨false, 0⟩ "o/w".data
    ⟨[.response (some "v3".data) []], .success, fun _ => .success, true, 1⟩
    ⟨[], none⟩ rfl

/-- C3 counterexample: the claim states that after a failed source-archive
download the staged version directory is removed via Safe Deletion before the
cycle ends.  Here the archive fetch fails (the request errors, so
`download_file_with_progress` returns `False` rather than raising), and the
cycle ends with no `safe_remove_dir` call and the freshly staged, empty
directory `v1` still on disk. -/
theorem C3_counterexample_staged_dir_survives :
    download_source_code ⟨true, 3⟩ "o/r".data
      ⟨[.response (some "v1".data) []], .httpError, fun _ => .success, true, 7⟩
      ⟨[], none⟩
    = ⟨.ok false, ⟨[⟨"v1".data, 7, []⟩], none⟩, ⟨none, none, some false, none⟩⟩ := by
  decide

/-- C3 amended: when the source-archive download fails (by returning failure —
its internal handler catches every exception), the cycle ends in failure for
this repository with the VersionRecord unchanged, but the staged version
directory is NOT removed: the failure-path `safe_remove_dir` only fires on a
raised exception, so the empty staged directory is left for the next cycle's
pre-stage cleanup.  Subsequent repositories still proceed. -/
theorem C3_archive_failure_no_rollback (cfg : Config) (repo : Str)
    (env : CycleEnv) (s : RepoState) (rel : ReleaseInfo)
    (rest : List (Str × CycleEnv × RepoState))
    (hp : get_latest_release repo env.pollAttempts = .ok (some rel))
    (hrec : ¬ s.record = some rel.tag_name)
    (ha : ¬ env.archiveOutcome = .success) :
    (download_source_code cfg repo env s).result = .ok false
    ∧ (download_source_code cfg repo env s).trace.rollbackRemoved = none
    ∧ (download_source_code cfg repo env s).state.record = s.record
    ∧ (download_source_code cfg repo env s).state.versionDirs
        = s.versionDirs.filter (fun d => d.name != sanitizeTag rel.tag_name)
          ++ [⟨sanitizeTag rel.tag_name, env.now, []⟩]
    ∧ monitor_repos cfg ((repo, env, s) :: rest)
        = (download_source_code cfg repo env s).state :: monitor_repos cfg rest := by
  cases ha2 : env.archiveOutcome with
  | success => exact absurd ha2 ha
  | httpError =>
      refine ⟨?_, ?_, ?_, ?_, ?_⟩ <;>
        simp [download_source_code, monitor_repos, hp, hrec, ha2,
          download_file_with_progress, removeFile, createFile]
  | streamError =>
      refine ⟨?_, ?_, ?_, ?_, ?_⟩ <;>
        simp [download_source_code, monitor_repos, hp, hrec, ha2,
          download_file_with_progress, removeFile, createFile]

/-- Witness for C3 (amended) at a concrete mid-stream archive failure. -/
theorem C3_archive_failure_no_rollback_witness :
    (download_source_code ⟨true, 3⟩ "o/r".data
      ⟨[.response (some "v9".data) []], .streamError, fun _ => .success, true, 2⟩
      ⟨[], none⟩).trace.rollbackRemoved = none :=
  (C3_archive_failure_no_rollback ⟨true, 3⟩ "o/r".data
    ⟨[.response (some "v9".data) []], .streamError, fun _ => .success, true, 2⟩
    ⟨[], none⟩ ⟨"v9".data, []⟩ [] rfl (by decide) (by decide)).2.1

/-- C5: when the resolved remote tag equals the stored VersionRecord, the
cycle returns success having created no version directory, passed nothing to
`safe_remove_dir`'s staging call sites, and written no record (the empty
trace); the only state change is maintenance pruning, which can only drop
directories.  Running the same cycle again from the resulting state changes
nothing at all: the second run returns the state it was given. -/
theorem C5_unchanged_tag_idempotent (cfg : Config) (repo : Str)
    (env : CycleEnv) (s : RepoState) (rel : ReleaseInfo)
    (hp : get_latest_release repo env.pollAttempts = .ok (some rel))
    (hrec : s.record = some rel.tag_name) :
    (download_source_code cfg repo env s).result = .ok true
    ∧ (download_source_code cfg repo env s).trace = emptyTrace
    ∧ (download_source_code cfg repo env s).state.record = s.record
    ∧ (∀ d ∈ (download_source_code cfg repo env s).state.versionDirs,
        d ∈ s.versionDirs)
    ∧ download_source_code cfg repo env (download_source_code cfg repo env s).state
        = ⟨.ok true, (download_source_code cfg repo env s).state, emptyTrace⟩ := by
  have h1 : download_source_code cfg repo env s
      = ⟨.ok true, clean_old_versions cfg s, emptyTrace⟩ := by
    simp [download_source_code, hp, hrec]
  refine ⟨by rw [h1], by rw [h1], ?_, ?_, ?_⟩
  · rw [h1]
    exact clean_old_versions_record cfg s
  · rw [h1]
    intro d hd
    exact clean_old_versions_subset cfg s d hd
  · rw [h1]
    have hrec2 : (clean_old_versions cfg s).record = some rel.tag_name := by
      rw [clean_old_versions_record]
      exact hrec
    simp [download_source_code, hp, hrec2, clean_old_versions_idem]

/-- Witness for C5 at a concrete up-to-date repository. -/
theorem C5_unchanged_tag_idempotent_witness :
    (download_source_code ⟨true, 1⟩ "o/r".data
      ⟨[.response (some "v1".data) []], .success, fun _ => .success, true, 7⟩
      ⟨[⟨"v1".data, 3, []⟩], some "v1".data⟩).result = .ok true :=
  (C5_unchanged_tag_idempotent ⟨true, 1⟩ "o/r".data
    ⟨[.response (some "v1".data) []], .success, fun _ => .success, true, 7⟩
    ⟨[⟨"v1".data, 3, []⟩], some "v1".data⟩ ⟨"v1".data, []⟩ rfl rfl).1

/-- C9: a parsed response whose `tag_name` is missing or empty makes
`get_latest_release` return `None` — not an error — and the cycle then skips
the repository: it returns `False` with the repository state (directories and
record) unchanged and an empty trace.  Only exhausting every retry on request
failures raises, and the exception is `NetworkError` carrying the repository
id. -/
theorem C9_no_release_is_skip_not_error (repo : Str) (assets : List Asset)
    (rest : List PollAttempt) (n : Nat) (cfg : Config) (env : CycleEnv)
    (s : RepoState)
    (habs : get_latest_release repo env.pollAttempts = .ok none) :
    get_latest_release repo (PollAttempt.response none assets :: rest) = .ok none
    ∧ get_latest_release repo (PollAttempt.response (some []) assets :: rest)
        = .ok none
    ∧ get_latest_release repo (List.replicate (n + 1) PollAttempt.reqError)
        = .raised (.networkError repo)
    ∧ download_source_code cfg repo env s = ⟨.ok false, s, emptyTrace⟩ := by
  refine ⟨?_, ?_, get_latest_release_all_fail repo n, ?_⟩
  · simp [get_latest_release]
  · simp [get_latest_release]
  · simp [download_source_code, habs]

/-- Witness for C9 at a concrete release-less repository. -/
theorem C9_no_release_is_skip_not_error_witness :
    download_source_code ⟨true, 1⟩ "o/r".data
      ⟨[PollAttempt.response none []], .success, fun _ => .success, true, 0⟩
      ⟨[], none⟩
    = ⟨.ok false, ⟨[], none⟩, emptyTrace⟩ :=
  (C9_no_release_is_skip_not_error "o/r".data [] [] 0 ⟨true, 1⟩
    ⟨[PollAttempt.response none []], .success, fun _ => .success, true, 0⟩
    ⟨[], none⟩ rfl).2.2.2
